import Mathlib

set_option maxRecDepth 40000

/-!
Verification of the cell-normalization / grouping / export pipeline of
`gui_main.py` (Excel merge tool).  The pipeline reads every spreadsheet cell
as a string (`dtype=str`, so a missing cell surfaces as the float `nan`,
which `astype(str)` renders as the string "nan"), normalizes each cell
(date-aware formatting for date-keyword columns, "nan" removal, trailing
".0" trim, scientific-notation repair), groups rows by an ordered tuple of
key-column values while also maintaining a parallel index keyed by the
"_"-joined key string, coerces detail values to numbers where applicable,
and writes an Excel sheet followed by a JSON export.

Modelling conventions:
* a raw cell is `Option String`; `none` is a missing cell (pandas NaN);
* Python `float` values are modelled as exact fractions (`PyQ`, an
  integer numerator with a positive natural denominator); Python
  `float(s)` parsing is modelled by an exact decimal/scientific parser with
  an overflow cutoff at `2 ^ 1024` (where CPython's `int(float(s))` raises
  `OverflowError` on the resulting infinity);
* `pd.to_datetime(s, errors='coerce')` is modelled on the reachable input
  classes: strict ISO `YYYY-MM-DD` parsing (month/day validated), plus the
  dateutil year-only parse of dot-containing numeric strings whose 4-digit
  integer part is a year in the `Timestamp` range (1678-2262), which pandas
  renders as January 1 of that year; all other reachable inputs give NaT;
* Python dicts are insertion-ordered association lists;
* `datetime(1899,12,30) + timedelta(days=v)` overflows (year > 9999) for
  `v ≥ 2958466`; the source catches that exception and falls through.
-/

/-- Exact fraction model of a Python float: numerator over a (by
construction positive) denominator.  Kept unnormalized; every operation
used below is deterministic, so equality of representations is used for
equality of computed values. -/
structure PyQ where
  num : Int
  den : Nat
deriving DecidableEq, Repr

/-- `10 ^ n` as a natural number (structural, kernel-reduction friendly). -/
def pow10 : Nat → Nat
  | 0 => 1
  | n + 1 => 10 * pow10 n

/-- Squaring helper for building the float overflow cutoff. -/
def sqN (n : Nat) : Nat := n * n

/-- `2 ^ 1024`, the magnitude at which CPython float conversion overflows to
infinity, built by ten squarings so the kernel can evaluate it cheaply. -/
def twoPow1024 : Nat := sqN (sqN (sqN (sqN (sqN (sqN (sqN (sqN (sqN (sqN 2)))))))))

/-- Embed an integer. -/
def qOfInt (i : Int) : PyQ := ⟨i, 1⟩

/-- Strict comparison of fractions (valid for positive denominators). -/
def qLt (a b : PyQ) : Bool := a.num * (b.den : Int) < b.num * (a.den : Int)

/-- Python `int(q)` on a float value: truncation toward zero (Lean's `Int`
division truncates toward zero). -/
def truncQ (q : PyQ) : Int := q.num / (q.den : Int)

/-- Floor of a fraction as an integer (used for the date part of
`datetime + timedelta(days=q)`). -/
def floorQ (q : PyQ) : Int := q.num.fdiv (q.den : Int)

/-- Python `str.lower` on one character, ASCII range (the source only ever
lowercases ASCII letters and CJK text, which is unaffected). -/
def pyLower (c : Char) : Char :=
  if 'A' ≤ c ∧ c ≤ 'Z' then Char.ofNat (c.toNat + 32) else c

/-- Python `str.lower` on a whole string. -/
def pyLowerStr (s : String) : String := ⟨s.data.map pyLower⟩

/-- Python `str.strip()`: drop leading and trailing whitespace. -/
def pyStrip (s : String) : String :=
  ⟨((s.data.dropWhile Char.isWhitespace).reverse.dropWhile Char.isWhitespace).reverse⟩

/-- Does the character list `p` occur at the head of `l`? -/
def startsWithL : List Char → List Char → Bool
  | [], _ => true
  | _ :: _, [] => false
  | a :: as, b :: bs => a == b && startsWithL as bs

/-- Does the character list `needle` occur anywhere inside `l`?
Models Python's `needle in hay` substring test. -/
def hasSubL (needle : List Char) : List Char → Bool
  | [] => startsWithL needle []
  | c :: rest => startsWithL needle (c :: rest) || hasSubL needle rest

/-- Python `needle in hay` on strings. -/
def strHasSub (hay needle : String) : Bool := hasSubL needle.data hay.data

/-- Python `s.replace('.', '', 1)`: drop the first `'.'` only. -/
def removeFirstDot : List Char → List Char
  | [] => []
  | c :: rest => if c = '.' then rest else c :: removeFirstDot rest

/-- Python `s.isdigit()`: non-empty and all digits. -/
def allDigits (s : String) : Bool := !s.data.isEmpty && s.data.all Char.isDigit

/-- The source's numeric-string test `val.replace('.', '', 1).isdigit()`:
digits with at most one decimal point (and at least one digit). -/
def isNumLike (s : String) : Bool :=
  !(removeFirstDot s.data).isEmpty && (removeFirstDot s.data).all Char.isDigit

/-- Decimal digits to the natural number they denote (most significant first). -/
def digitsToNat (l : List Char) : Nat :=
  l.foldl (fun a c => a * 10 + (c.toNat - 48)) 0

/-- Split a character list at its first `'.'` (integer part, fractional part). -/
def splitAtDot : List Char → List Char × List Char
  | [] => ([], [])
  | c :: rest =>
    if c = '.' then ([], rest)
    else (c :: (splitAtDot rest).1, (splitAtDot rest).2)

/-- Python `float(s)` for a string of digits with at most one decimal point,
modelled exactly: `ip.fp` denotes `(ip * 10^|fp| + fp) / 10^|fp|`. -/
def ratOfNumString (s : String) : PyQ :=
  ⟨(digitsToNat (splitAtDot s.data).1 * pow10 (splitAtDot s.data).2.length
      + digitsToNat (splitAtDot s.data).2 : Nat),
   pow10 (splitAtDot s.data).2.length⟩

/-- Decimal digit characters of `n`, most significant first (fuel-based so
that the kernel can evaluate it). -/
def natDigitsFuel : Nat → Nat → List Char
  | 0, _ => []
  | fuel + 1, n =>
    if n < 10 then [Nat.digitChar n]
    else natDigitsFuel fuel (n / 10) ++ [Nat.digitChar (n % 10)]

/-- Python `str` of a non-negative integer.  The fixed fuel 400 covers every
value below `10 ^ 400`, far above the float overflow cutoff `2 ^ 1024 / 10^91`
— every integer the pipeline can render. -/
def natStr (n : Nat) : String := ⟨natDigitsFuel 400 n⟩

/-- Python `str` of an arbitrary integer. -/
def intStr (i : Int) : String :=
  if i < 0 then "-" ++ natStr (-i).toNat else natStr i.toNat

/-- Two-digit zero-padded rendering, as in `strftime('%m')` / `strftime('%d')`. -/
def pad2 (n : Nat) : String := if n < 10 then "0" ++ natStr n else natStr n

/-- Python `s.endswith('.0')`. -/
def endsDot0 (s : String) : Bool :=
  match s.data.reverse with
  | '0' :: '.' :: _ => true
  | _ => false

/-- Python `s[:-2]` for strings of length ≥ 2: drop the final two characters. -/
def dropLast2Str (s : String) : String := ⟨s.data.dropLast.dropLast⟩

/-- Scan for the substring `"e+"` of the lowercased string: a character that
lowercases to `'e'` is exactly `'e'` or `'E'`, and `'+'` is unaffected by
lowercasing, so this scans for `'e'`/`'E'` immediately followed by `'+'`. -/
def hasEPlusAux : List Char → Bool
  | [] => false
  | [_] => false
  | c1 :: c2 :: rest =>
    ((c1 == 'e' || c1 == 'E') && c2 == '+') || hasEPlusAux (c2 :: rest)

/-- The source's scientific-notation detector: `'e+' in str(val).lower()`. -/
def hasEPlus (s : String) : Bool := hasEPlusAux s.data

/-- Scale a mantissa fraction by `10 ^ e` for a signed exponent. -/
def qScale10 (q : PyQ) (e : Int) : PyQ :=
  if 0 ≤ e then ⟨q.num * (pow10 e.toNat : Nat), q.den⟩
  else ⟨q.num, q.den * pow10 (-e).toNat⟩

/-- Negate a fraction when the parsed sign was negative. -/
def qApplySign (neg : Bool) (q : PyQ) : PyQ := if neg then ⟨-q.num, q.den⟩ else q

/-- Core of the model of Python `float(string)`: optional sign, decimal
mantissa with at least one digit, optional `e`/`E` exponent with optional
sign.  Returns the exact fraction value. -/
def pyFloatCore (l : List Char) : Option PyQ :=
  let signAndRest : Bool × List Char :=
    match l with
    | '+' :: r => (false, r)
    | '-' :: r => (true, r)
    | _ => (false, l)
  let neg := signAndRest.1
  let ip := signAndRest.2.takeWhile Char.isDigit
  let l2 := signAndRest.2.dropWhile Char.isDigit
  let fpAndRest : List Char × List Char :=
    match l2 with
    | '.' :: r => (r.takeWhile Char.isDigit, r.dropWhile Char.isDigit)
    | _ => ([], l2)
  let fp := fpAndRest.1
  let l3 := fpAndRest.2
  if ip.isEmpty && fp.isEmpty then none
  else
    let mant : PyQ :=
      ⟨(digitsToNat ip * pow10 fp.length + digitsToNat fp : Nat), pow10 fp.length⟩
    match l3 with
    | [] => some (qApplySign neg mant)
    | 'e' :: r =>
      let esignAndRest : Bool × List Char :=
        match r with
        | '+' :: t => (false, t)
        | '-' :: t => (true, t)
        | _ => (false, r)
      let ed := esignAndRest.2.takeWhile Char.isDigit
      let r2 := esignAndRest.2.dropWhile Char.isDigit
      if ed.isEmpty || !r2.isEmpty then none
      else
        let e : Int := if esignAndRest.1 then -(digitsToNat ed : Int) else (digitsToNat ed : Int)
        some (qApplySign neg (qScale10 mant e))
    | 'E' :: r =>
      let esignAndRest : Bool × List Char :=
        match r with
        | '+' :: t => (false, t)
        | '-' :: t => (true, t)
        | _ => (false, r)
      let ed := esignAndRest.2.takeWhile Char.isDigit
      let r2 := esignAndRest.2.dropWhile Char.isDigit
      if ed.isEmpty || !r2.isEmpty then none
      else
        let e : Int := if esignAndRest.1 then -(digitsToNat ed : Int) else (digitsToNat ed : Int)
        some (qApplySign neg (qScale10 mant e))
    | _ => none

/-- Model of Python `float(string)` followed by `int(...)`-compatibility:
parse failure and overflow-to-infinity (where `int` would raise) both give
`none`.  `float` strips surrounding whitespace. -/
def pyFloat (s : String) : Option PyQ :=
  match pyFloatCore (pyStrip s).data with
  | some q =>
    if qLt q ⟨(twoPow1024 : Nat), 1⟩ ∧ qLt ⟨-(twoPow1024 : Nat), 1⟩ q then some q
    else none
  | none => none

/-- Gregorian leap-year rule. -/
def isLeap (y : Nat) : Bool := (y % 4 == 0 && y % 100 != 0) || y % 400 == 0

/-- Number of days in month `m` of year `y`. -/
def daysInMonth (y m : Nat) : Nat :=
  if m = 2 then (if isLeap y then 29 else 28)
  else if m = 4 ∨ m = 6 ∨ m = 9 ∨ m = 11 then 30 else 31

/-- Civil date (year, month, day) from a count of days since 1970-01-01
(Howard Hinnant's `civil_from_days` algorithm; all divisions after the era
adjustment act on non-negative operands, so Lean's truncating `Int`
division agrees with the C++ original). -/
def civilFromDays (z0 : Int) : Int × Nat × Nat :=
  let z := z0 + 719468
  let era : Int := (if 0 ≤ z then z else z - 146096) / 146097
  let doe : Int := z - era * 146097
  let yoe : Int := (doe - doe / 1460 + doe / 36524 - doe / 146096) / 365
  let y : Int := yoe + era * 400
  let doy : Int := doe - (365 * yoe + yoe / 4 - yoe / 100)
  let mp : Int := (5 * doy + 2) / 153
  let d : Int := doy - (153 * mp + 2) / 5 + 1
  let m : Int := if mp < 10 then mp + 3 else mp - 9
  (if m ≤ 2 then y + 1 else y, m.toNat, d.toNat)

/-- `strftime('%Y-%m-%d')`. -/
def renderYMD (y : Int) (m d : Nat) : String :=
  intStr y ++ "-" ++ pad2 m ++ "-" ++ pad2 d

/-- `(datetime(1899,12,30) + timedelta(days=q)).strftime('%Y-%m-%d')`:
Excel serial `q` to an ISO date string (1899-12-30 is 25569 days before the
Unix epoch; the fractional part of `q` is time of day and drops out). -/
def renderSerial (q : PyQ) : String :=
  let t := civilFromDays (floorQ q - 25569)
  renderYMD t.1 t.2.1 t.2.2

/-- Model of `pd.to_datetime(s, errors='coerce')` on the input classes the
pipeline can reach: strict ISO `YYYY-MM-DD` strings (month/day validated),
and dot-containing numeric strings, which pandas' datetime-likeness gate
lets through when the fully-float-parsed value is at least 1000 and which
dateutil then parses as a year-only date when the integer part is a 4-digit
year — yielding January 1 of that year (pandas fills missing fields from a
Jan-1 default) when the year lies inside the `Timestamp` range (1678-2262),
and an out-of-bounds/parse error (NaT under `errors='coerce'`) otherwise.
A 4-digit in-range year is automatically ≥ 1000, so the gate is subsumed by
the year-range check.  Every other reachable input coerces to NaT. -/
def pdToDatetime (s : String) : Option (Nat × Nat × Nat) :=
  let l := s.data
  if l.length = 10 ∧ (l.drop 4).take 1 = ['-'] ∧ (l.drop 7).take 1 = ['-'] ∧
      (l.take 4).all Char.isDigit ∧ ((l.drop 5).take 2).all Char.isDigit ∧
      ((l.drop 8).take 2).all Char.isDigit then
    let y := digitsToNat (l.take 4)
    let m := digitsToNat ((l.drop 5).take 2)
    let d := digitsToNat ((l.drop 8).take 2)
    if 1 ≤ m ∧ m ≤ 12 ∧ 1 ≤ d ∧ d ≤ daysInMonth y m then some (y, m, d) else none
  else if isNumLike s = true ∧ l.contains '.' = true then
    let a := (splitAtDot l).1
    if a.length = 4 ∧ 1678 ≤ digitsToNat a ∧ digitsToNat a ≤ 2262 then
      some (digitsToNat a, 1, 1)
    else none
  else none

/-- The fixed canonical key-column order `STANDARD_KEY_COLUMNS` of the source. -/
def STANDARD_KEY_COLUMNS : List String :=
  ["日期", "清美出库日期", "运单号码", "清美系统订单号",
   "寄件地区", "到件地区", "对方公司名称", "箱数", "计费重量", "产品类型"]

/-- The rename map `COLUMN_MAPPING` (`{"费用(元)": "费用"}`) applied with
`COLUMN_MAPPING.get(col, col)`. -/
def renameCol (col : String) : String := if col = "费用(元)" then "费用" else col

/-- The fixed monetary column set forced to float in detail coercion. -/
def MONETARY_COLUMNS : List String := ["费用", "单票折扣", "应付金额"]

/-- The date-keyword column detector:
`any(keyword in str(col) for keyword in ['日期', '时间', 'Date', 'Time'])`. -/
def isDateCol (col : String) : Bool :=
  strHasSub col "日期" || strHasSub col "时间" || strHasSub col "Date" || strHasSub col "Time"

/-- The tail of `format_excel_date` after the numeric-string branch: strings
have no `strftime`, so try `pd.to_datetime` unless the string is all digits. -/
def fedFallback (val_str : String) : String :=
  if allDigits val_str then val_str
  else
    match pdToDatetime val_str with
    | some t => renderYMD (t.1 : Int) t.2.1 t.2.2
    | none => val_str

/-- The source's `format_excel_date` restricted to its reachable input type:
every cell is a string (`dtype=str`) or a missing marker (pandas NaN, the
`pd.isna` branch).  The `isinstance(value, datetime)` and
`isinstance(value, (int, float))` branches and the `hasattr(value,
'strftime')` probe are unreachable for string inputs and are omitted.  The
serial-number branch raises `OverflowError` past year 9999 (serial ≥
2958466), which the bare `except` turns into a fall-through. -/
def format_excel_date : Option String → String
  | none => ""
  | some value =>
    if value = "" ∨ pyLowerStr value = "nan" then ""
    else
      let val_str := pyStrip value
      if isNumLike val_str then
        if qLt ⟨10000, 1⟩ (ratOfNumString val_str) then
          if qLt (ratOfNumString val_str) ⟨2958466, 1⟩ then
            renderSerial (ratOfNumString val_str)
          else fedFallback val_str
        else fedFallback val_str
      else fedFallback val_str

/-- `astype(str)` on one cell: a missing value (float NaN) stringifies to
"nan"; strings are unchanged. -/
def astype_str : Option String → String
  | none => "nan"
  | some v => v

/-- The per-column lambda
`lambda x: "" if x == "nan" else (x[:-2] if x.endswith('.0') else x)`. -/
def trim_nan_dot0 (x : String) : String :=
  if x = "nan" then "" else if endsDot0 x then dropLast2Str x else x

/-- The source's `fix_sci`: repair scientific notation via
`str(int(float(val)))` when `'e+'` occurs in the lowercased string, keeping
the value on any exception. -/
def fix_sci (val : String) : String :=
  if hasEPlus val then
    match pyFloat val with
    | some q => intStr (truncQ q)
    | none => val
  else val

/-- Full per-cell normalization for column `col`: `format_excel_date` for
date-keyword columns only, then the nan/`.0` lambda, then `fix_sci` —
exactly the per-column passes of `process_data` (source lines 341-362). -/
def normalizeCell (col : String) (cell : Option String) : String :=
  fix_sci (trim_nan_dot0 (if isDateCol col then format_excel_date cell else astype_str cell))

/-- A Python value as stored in a detail record: string, int, or float. -/
inductive PyVal where
  | s : String → PyVal
  | i : Int → PyVal
  | f : PyQ → PyVal
deriving DecidableEq, Repr

/-- Detail-value coercion (source lines 389-406): a numeric-looking string
becomes a float when it has a decimal point, otherwise an int — overwritten
with a float when the renamed output column is monetary.  The
`isinstance(val, (int, float))` branch is unreachable (all values are
strings) and the `except: pass` is unreachable for this input type
(`float`/`int` succeed on every digits-with-one-dot string). -/
def coerceDetail (output_col_name : String) (val : String) : PyVal :=
  if isNumLike val then
    if val.data.contains '.' then PyVal.f (ratOfNumString val)
    else
      if output_col_name ∈ MONETARY_COLUMNS then PyVal.f (ratOfNumString val)
      else PyVal.i (digitsToNat val.data : Int)
  else PyVal.s val

/-- Python dict assignment `d[k] = v` on an insertion-ordered association
list: replace in place if the key exists, else append at the end. -/
def dictInsert (k : String) (v : PyVal) : List (String × PyVal) → List (String × PyVal)
  | [] => [(k, v)]
  | (k', v') :: rest =>
    if k' = k then (k', v) :: rest else (k', v') :: dictInsert k v rest

/-- Build one detail record from a normalized row (source lines 383-408):
for each detail column in table order, store the coerced value under the
renamed output name. -/
def buildDetail (detail_columns : List String) (row : String → String) :
    List (String × PyVal) :=
  detail_columns.foldl
    (fun acc col => dictInsert (renameCol col) (coerceDetail (renameCol col) (row col)) acc) []

/-- Python `"_".join(...)`: key-column values joined with `"_"`. -/
def joinKey : List String → String
  | [] => ""
  | [s] => s
  | s :: rest => s ++ "_" ++ joinKey rest

/-- Append `v` to the group of key `k` in an insertion-ordered group map,
creating the group at the end on first occurrence — the
`if key not in d: d[key] = []` / `d[key].append(item)` idiom. -/
def updateAppend {α β : Type} [DecidableEq α] (k : α) (v : β) :
    List (α × List β) → List (α × List β)
  | [] => [(k, [v])]
  | (k', vs) :: rest =>
    if k' = k then (k', vs ++ [v]) :: rest else (k', vs) :: updateAppend k v rest

/-- One iteration of the grouping loop (source lines 369-411): compute the
key tuple and the `"_"`-joined key string, build the detail record, and
append it under both indexes. -/
def groupStep (key_columns detail_columns : List String)
    (acc : List (List String × List (List (String × PyVal)))
           × List (String × List (List (String × PyVal))))
    (row : String → String) :
    List (List String × List (List (String × PyVal)))
      × List (String × List (List (String × PyVal))) :=
  (updateAppend (key_columns.map row) (buildDetail detail_columns row) acc.1,
   updateAppend (joinKey (key_columns.map row)) (buildDetail detail_columns row) acc.2)

/-- The grouping pass: fold the rows in order into the tuple-indexed map
`groups` and the string-indexed map `json_data_dict`. -/
def groupRows (key_columns detail_columns : List String) (rows : List (String → String)) :
    List (List String × List (List (String × PyVal)))
      × List (String × List (List (String × PyVal))) :=
  rows.foldl (groupStep key_columns detail_columns) ([], [])

/-- `item.get(col_name, "")` on a detail record. -/
def detailGet (item : List (String × PyVal)) (k : String) : PyVal :=
  match item.find? (fun p => p.1 == k) with
  | some p => p.2
  | none => PyVal.s ""

/-- The worksheet grid written by the export loop (source lines 413-444):
header row `["序号"] + key_columns + renamed detail headers`, then one row
per detail record carrying the 1-based group sequence number, the key tuple
and the detail values.  (The vertical merge regions and center alignment on
top of this grid carry no data and are outside the claims.) -/
def renderSheet (key_columns output_detail_headers : List String)
    (groups : List (List String × List (List (String × PyVal)))) : List (List PyVal) :=
  (("序号" :: key_columns ++ output_detail_headers).map PyVal.s) ::
    (groups.enum.map (fun g =>
      g.2.2.map (fun item =>
        PyVal.i (g.1 + 1) :: g.2.1.map PyVal.s
          ++ output_detail_headers.map (fun h => detailGet item h)))).flatten

/-- Key-column ordering (source lines 301-312): selected standard columns
first in `STANDARD_KEY_COLUMNS` order, then the remaining selected columns
in their original order. -/
def computeKeyColumns (selected_columns : List String) : List String :=
  let key_columns := STANDARD_KEY_COLUMNS.filter (fun c => c ∈ selected_columns)
  key_columns ++ selected_columns.filter (fun c => c ∉ key_columns)

/-- An observable output write of one run. -/
inductive WriteEvent where
  | excel : List (List PyVal) → WriteEvent
  | json : List (String × List (List (String × PyVal))) → WriteEvent
deriving DecidableEq

/-- How a run ends: the pre-write key-column validation warning, a runtime
exception caught by the `try/except` (error dialog), or success. -/
inductive ProcError where
  | validation : ProcError
  | runtime : ProcError
deriving DecidableEq

/-- Success/failure of each fallible I/O stage of one run: `wb.save`,
`os.makedirs` for the JSON directory, and the JSON file write. -/
structure RunFlags where
  saveOk : Bool
  mkdirOk : Bool
  jsonOk : Bool
deriving DecidableEq

/-- Outcome of one run: the writes that actually happened, in order, and
the reported error if any. -/
structure Outcome where
  events : List WriteEvent
  error : Option ProcError
deriving DecidableEq

/-- The whole `process_data` run (source lines 286-485) over a table with
columns `cols`, checkbox state `checked`, and raw rows `rawRows`: partition
columns, order the key columns, validate (warning and early return when no
key column), normalize cells, group, then write the Excel sheet and the
JSON export in that order.  An exception at any I/O stage is caught by the
surrounding `try/except`, which reports an error but does not undo writes
that already happened. -/
def process_data (cols : List String) (checked : String → Bool)
    (rawRows : List (String → Option String)) (fl : RunFlags) : Outcome :=
  let selected_columns := cols.filter (fun c => checked c)
  let detail_columns := cols.filter (fun c => !(checked c))
  let key_columns := computeKeyColumns selected_columns
  if key_columns = [] then ⟨[], some ProcError.validation⟩
  else
    let processedRows := rawRows.map (fun r c => normalizeCell c (r c))
    let grouped := groupRows key_columns detail_columns processedRows
    let sheet := renderSheet key_columns (detail_columns.map renameCol) grouped.1
    if !fl.saveOk then ⟨[], some ProcError.runtime⟩
    else if !fl.mkdirOk then ⟨[WriteEvent.excel sheet], some ProcError.runtime⟩
    else if !fl.jsonOk then ⟨[WriteEvent.excel sheet], some ProcError.runtime⟩
    else ⟨[WriteEvent.excel sheet, WriteEvent.json grouped.2], none⟩

/-- Did the run write the tabular Excel file? -/
def wroteExcel (o : Outcome) : Bool :=
  o.events.any (fun e => match e with | WriteEvent.excel _ => true | _ => false)

/-- Did the run write the keyed JSON export? -/
def wroteJson (o : Outcome) : Bool :=
  o.events.any (fun e => match e with | WriteEvent.json _ => true | _ => false)


/-! ### Helper lemmas -/

theorem stringDataInj {a b : String} (h : a.data = b.data) : a = b :=
  String.ext h

theorem mem_removeFirstDot {c : Char} :
    ∀ {l : List Char}, c ∈ l → c ∈ removeFirstDot l ∨ c = '.' := by
  intro l
  induction l with
  | nil => intro h; exact absurd h (List.not_mem_nil c)
  | cons a rest ih =>
    intro h
    by_cases ha : a = '.'
    · subst ha
      rw [List.mem_cons] at h
      rcases h with h | h
      · right; exact h
      · left; simpa [removeFirstDot] using h
    · rw [List.mem_cons] at h
      rcases h with h | h
      · left; simp [removeFirstDot, ha, h]
      · rcases ih h with h' | h'
        · left; simp [removeFirstDot, ha, h']
        · right; exact h'

theorem numLike_chars {s : String} (h : isNumLike s = true) :
    ∀ c ∈ s.data, c.isDigit = true ∨ c = '.' := by
  intro c hc
  unfold isNumLike at h
  rw [Bool.and_eq_true] at h
  rcases mem_removeFirstDot hc with h' | h'
  · left
    exact List.all_eq_true.mp h.2 c h'
  · right; exact h'

theorem hasEPlusAux_false {l : List Char}
    (h : ∀ c ∈ l, c ≠ 'e' ∧ c ≠ 'E') : hasEPlusAux l = false := by
  induction l with
  | nil => rfl
  | cons c1 rest ih =>
    cases rest with
    | nil => rfl
    | cons c2 t =>
      have h1 := h c1 (List.mem_cons_self _ _)
      have ht : ∀ c ∈ c2 :: t, c ≠ 'e' ∧ c ≠ 'E' :=
        fun c hc => h c (List.mem_cons_of_mem _ hc)
      simp [hasEPlusAux, h1.1, h1.2, ih ht]

theorem hasEPlus_false_of_chars {s : String}
    (h : ∀ c ∈ s.data, c ≠ 'e' ∧ c ≠ 'E') : hasEPlus s = false :=
  hasEPlusAux_false h

theorem natDigitsFuel_digits :
    ∀ (fuel n : Nat) (c : Char), c ∈ natDigitsFuel fuel n → c.isDigit = true := by
  intro fuel
  induction fuel with
  | zero => intro n c hc; exact absurd hc (List.not_mem_nil c)
  | succ f ih =>
    intro n c hc
    unfold natDigitsFuel at hc
    by_cases hn : n < 10
    · rw [if_pos hn] at hc
      rw [List.mem_singleton] at hc
      subst hc
      revert hn
      revert n
      decide
    · rw [if_neg hn] at hc
      rw [List.mem_append] at hc
      rcases hc with hc | hc
      · exact ih (n / 10) c hc
      · rw [List.mem_singleton] at hc
        subst hc
        have : n % 10 < 10 := Nat.mod_lt n (by decide)
        revert this
        generalize n % 10 = m
        intro hm
        revert hm
        revert m
        decide

theorem intStr_chars (i : Int) :
    ∀ c ∈ (intStr i).data, c.isDigit = true ∨ c = '-' := by
  intro c hc
  unfold intStr at hc
  by_cases hi : i < 0
  · rw [if_pos hi] at hc
    rw [String.data_append] at hc
    rw [List.mem_append] at hc
    rcases hc with hc | hc
    · right
      simpa using hc
    · left
      exact natDigitsFuel_digits 400 (-i).toNat c hc
  · rw [if_neg hi] at hc
    left
    exact natDigitsFuel_digits 400 i.toNat c hc

theorem natStr_chars (n : Nat) : ∀ c ∈ (natStr n).data, c.isDigit = true :=
  fun c hc => natDigitsFuel_digits 400 n c hc

theorem pad2_chars (n : Nat) : ∀ c ∈ (pad2 n).data, c.isDigit = true := by
  intro c hc
  unfold pad2 at hc
  by_cases hn : n < 10
  · rw [if_pos hn] at hc
    rw [String.data_append] at hc
    rw [List.mem_append] at hc
    rcases hc with hc | hc
    · rw [show ("0" : String).data = ['0'] from rfl] at hc
      rw [List.mem_singleton] at hc
      subst hc
      decide
    · exact natStr_chars n c hc
  · rw [if_neg hn] at hc
    exact natStr_chars n c hc

theorem renderYMD_chars (y : Int) (m d : Nat) :
    ∀ c ∈ (renderYMD y m d).data, c.isDigit = true ∨ c = '-' := by
  intro c hc
  unfold renderYMD at hc
  simp only [String.data_append, List.mem_append] at hc
  rcases hc with (((hc | hc) | hc) | hc) | hc
  · exact intStr_chars y c hc
  · right; simpa using hc
  · left; exact pad2_chars m c hc
  · right; simpa using hc
  · left; exact pad2_chars d c hc

theorem renderSerial_chars (q : PyQ) :
    ∀ c ∈ (renderSerial q).data, c.isDigit = true ∨ c = '-' :=
  renderYMD_chars _ _ _

theorem hasEPlus_intStr (i : Int) : hasEPlus (intStr i) = false := by
  apply hasEPlus_false_of_chars
  intro c hc
  rcases intStr_chars i c hc with h | h
  · constructor <;> (intro heq; rw [heq] at h; simp [Char.isDigit] at h)
  · subst h; exact ⟨by decide, by decide⟩

theorem fix_sci_idem (u : String) : fix_sci (fix_sci u) = fix_sci u := by
  by_cases h : hasEPlus u = true
  · unfold fix_sci
    rw [h]
    simp only [if_true]
    cases hp : pyFloat u with
    | none =>
      simp only
      rw [h]
      simp only [if_true]
      rw [hp]
    | some q =>
      simp only
      rw [hasEPlus_intStr]
      simp
  · have h' : hasEPlus u = false := by simpa using h
    unfold fix_sci
    rw [h']
    simp only [Bool.false_eq_true, if_false]
    rw [h']
    simp

theorem pdToDatetime_iso_neg {s : String} (h : '-' ∉ s.data) :
    ¬(s.data.length = 10 ∧ (s.data.drop 4).take 1 = ['-'] ∧
      (s.data.drop 7).take 1 = ['-'] ∧ (s.data.take 4).all Char.isDigit ∧
      ((s.data.drop 5).take 2).all Char.isDigit ∧
      ((s.data.drop 8).take 2).all Char.isDigit) := by
  intro hc
  apply h
  have h1 : '-' ∈ (s.data.drop 4).take 1 := by
    rw [hc.2.1]
    exact List.mem_singleton.mpr rfl
  exact List.drop_subset 4 s.data (List.take_subset 1 _ h1)

theorem numLike_no_dash {s : String} (h : isNumLike s = true) : '-' ∉ s.data := by
  intro hm
  rcases numLike_chars h '-' hm with h' | h'
  · simp [Char.isDigit] at h'
  · exact absurd h' (by decide)

theorem pdToDatetime_numeric {s : String} (hnum : isNumLike s = true)
    (hdot : s.data.contains '.' = true) :
    pdToDatetime s =
      (if (splitAtDot s.data).1.length = 4 ∧ 1678 ≤ digitsToNat (splitAtDot s.data).1 ∧
          digitsToNat (splitAtDot s.data).1 ≤ 2262 then
        some (digitsToNat (splitAtDot s.data).1, 1, 1)
       else none) := by
  unfold pdToDatetime
  rw [if_neg (pdToDatetime_iso_neg (numLike_no_dash hnum))]
  rw [if_pos ⟨hnum, hdot⟩]

theorem normalizeCell_date {c : String} (h : isDateCol c = true)
    (cell : Option String) :
    normalizeCell c cell = fix_sci (trim_nan_dot0 (format_excel_date cell)) := by
  simp [normalizeCell, h]

theorem normalizeCell_nondate {c : String} (h : isDateCol c = false)
    (cell : Option String) :
    normalizeCell c cell = fix_sci (trim_nan_dot0 (astype_str cell)) := by
  simp [normalizeCell, h]

/-! ### Claim theorems -/

/-- C4: a detail cell whose canonical string is digits with at most one
decimal point is coerced to a float when the renamed output column is in the
monetary set `{"费用", "单票折扣", "应付金额"}` (regardless of a decimal
point), and otherwise to a float exactly when it contains a decimal point
and to an integer otherwise; any other string is kept as a string.  (The
`except` fallback of the source is unreachable here: `float`/`int` succeed
on every digits-with-one-dot string, so no coercion failure can occur.) -/
theorem detail_coercion_c4 (name val : String) :
    (isNumLike val = true →
       (name ∈ MONETARY_COLUMNS → coerceDetail name val = PyVal.f (ratOfNumString val)) ∧
       (name ∉ MONETARY_COLUMNS → coerceDetail name val =
          (if val.data.contains '.' then PyVal.f (ratOfNumString val)
           else PyVal.i (digitsToNat val.data : Int)))) ∧
    (isNumLike val = false → coerceDetail name val = PyVal.s val) := by
  constructor
  · intro h
    constructor
    · intro hm
      unfold coerceDetail
      rw [if_pos h]
      by_cases hc : val.data.contains '.'
      · rw [if_pos hc]
      · rw [if_neg hc, if_pos hm]
    · intro hm
      unfold coerceDetail
      rw [if_pos h]
      by_cases hc : val.data.contains '.'
      · rw [if_pos hc, if_pos hc]
      · rw [if_neg hc, if_neg hm, if_neg hc]
  · intro h
    unfold coerceDetail
    rw [h]
    simp

/-- Witness for C4 at concrete inputs: the monetary column name "费用"
forces the dot-free numeric string "5" to a float. -/
theorem detail_coercion_c4_witness :
    coerceDetail "费用" "5" = PyVal.f (ratOfNumString "5") :=
  ((detail_coercion_c4 "费用" "5").1 (by decide)).1 (by decide)

/-- C6: a string containing the exponent marker (`'e+'` in the lowercased
string) is parsed as a float and re-rendered as an integer string when that
round-trip succeeds and is left unchanged otherwise; strings without the
marker are untouched; in particular "1.23e+10" normalizes to
"12300000000". -/
theorem sci_repair_c6 :
    (∀ v : String, hasEPlus v = true →
       (∀ q : PyQ, pyFloat v = some q → fix_sci v = intStr (truncQ q)) ∧
       (pyFloat v = none → fix_sci v = v)) ∧
    (∀ v : String, hasEPlus v = false → fix_sci v = v) ∧
    normalizeCell "运单号" (some "1.23e+10") = "12300000000" := by
  refine ⟨?_, ?_, by decide⟩
  · intro v h
    constructor
    · intro q hq
      unfold fix_sci
      rw [h, hq]
      simp
    · intro hn
      unfold fix_sci
      rw [h, hn]
      simp
  · intro v h
    unfold fix_sci
    rw [h]
    simp

/-- Witness for C6 at a concrete input: "1.23e+10" parses and re-renders. -/
theorem sci_repair_c6_witness :
    fix_sci "1.23e+10" = intStr (truncQ ⟨123 * pow10 10, 100⟩) :=
  (sci_repair_c6.1 "1.23e+10" (by decide)).1 ⟨123 * pow10 10, 100⟩ (by decide)

/-- C7 counterexample: in a column that is not date-keyword-flagged, the
mixed-case literal "NaN" is NOT normalized to the empty string — the
general per-column pass compares against the exact lowercase "nan" only, so
"NaN" survives verbatim. -/
theorem nan_case_c7_counterexample :
    normalizeCell "运单号" (some "NaN") = "NaN" ∧
    normalizeCell "运单号" (some "NaN") ≠ "" := by
  constructor
  · decide
  · decide

/-- C7 amended: a missing cell, an empty cell, and the exact lowercase
literal "nan" normalize to the empty string in every column; the
case-insensitive match ("NaN", "NAN", ...) applies only in
date-keyword-flagged columns (inside `format_excel_date`). -/
theorem nan_case_c7_amended :
    (∀ c : String, normalizeCell c none = "" ∧ normalizeCell c (some "") = "" ∧
       normalizeCell c (some "nan") = "") ∧
    (∀ c v : String, isDateCol c = true → pyLowerStr v = "nan" →
       normalizeCell c (some v) = "") := by
  constructor
  · intro c
    by_cases h : isDateCol c = true
    · simp only [normalizeCell_date h]
      exact ⟨by decide, by decide, by decide⟩
    · have h' : isDateCol c = false := by simpa using h
      simp only [normalizeCell_nondate h']
      exact ⟨by decide, by decide, by decide⟩
  · intro c v hd hl
    rw [normalizeCell_date hd]
    have hv : format_excel_date (some v) = "" := by
      simp only [format_excel_date]
      rw [if_pos (Or.inr hl)]
    rw [hv]
    decide

/-- Witness for C7 (amended) at a concrete input: "NAN" in the date-flagged
column "日期" is emptied. -/
theorem nan_case_c7_amended_witness : normalizeCell "日期" (some "NAN") = "" :=
  nan_case_c7_amended.2 "日期" "NAN" (by decide) (by decide)

/-- C9: the trailing-".0" trim drops exactly the final two characters of
any string ending in ".0" (other than the literal "nan", which the same
lambda empties first), whether or not the remainder is numeric, and it runs
exactly once per cell: "v1.0" normalizes to "v1", ".0" to the empty string,
and "1.0.0" to "1.0". -/
theorem trim_dot0_c9 :
    (∀ s : String, s ≠ "nan" → endsDot0 s = true →
       (trim_nan_dot0 s).data = s.data.dropLast.dropLast) ∧
    normalizeCell "运单号" (some "v1.0") = "v1" ∧
    normalizeCell "运单号" (some ".0") = "" ∧
    normalizeCell "运单号" (some "1.0.0") = "1.0" := by
  refine ⟨?_, by decide, by decide, by decide⟩
  intro s h1 h2
  unfold trim_nan_dot0
  rw [if_neg h1, if_pos h2]
  rfl

/-- Witness for C9 at a concrete input: "v1.0" has its final two characters
removed by the trim pass. -/
theorem trim_dot0_c9_witness :
    (trim_nan_dot0 "v1.0").data = "v1.0".data.dropLast.dropLast :=
  trim_dot0_c9.1 "v1.0" (by decide) (by decide)

/-- C10: when the detail columns "费用(元)" and "费用" both occur (in that
table order), both resolve to the output name "费用" and the detail record
keeps exactly one entry under that name — the value of the later column
"费用" — silently dropping the earlier column's value; the entry stays at
the position of first insertion. -/
theorem rename_collision_c10 (row : String → String) :
    buildDetail ["费用(元)", "费用"] row =
      [("费用", coerceDetail "费用" (row "费用"))] ∧
    buildDetail ["备注", "费用(元)", "费用"] row =
      [("备注", coerceDetail "备注" (row "备注")),
       ("费用", coerceDetail "费用" (row "费用"))] := by
  constructor
  · rfl
  · rfl

/-- C3: whenever the computed key-column list is empty (the checkbox
selection yields no key columns), `process_data` stops with the validation
warning before doing anything else: no write event is emitted — neither the
tabular sheet nor the keyed export — and no grouping output is produced. -/
theorem empty_keys_c3 (cols : List String) (checked : String → Bool)
    (rawRows : List (String → Option String)) (fl : RunFlags)
    (h : computeKeyColumns (cols.filter (fun c => checked c)) = []) :
    process_data cols checked rawRows fl = ⟨[], some ProcError.validation⟩ := by
  simp [process_data, h]

/-- Witness for C3 at a concrete input: deselecting every column of a
one-column table yields the validation outcome with zero writes. -/
theorem empty_keys_c3_witness :
    process_data ["备注"] (fun _ => false) [] ⟨true, true, true⟩ =
      ⟨[], some ProcError.validation⟩ :=
  empty_keys_c3 ["备注"] (fun _ => false) [] ⟨true, true, true⟩ (by decide)

/-- C2 counterexample: with a valid key selection, a successful Excel save
and a failing JSON-directory creation, the run writes the tabular sheet but
not the keyed export — the two artifacts are not "both or neither".  (The
source saves the workbook at line 466 before it first touches the JSON
directory at line 470, and the surrounding `except` does not remove the
already-written file.) -/
theorem atomic_write_c2_counterexample :
    wroteExcel (process_data ["日期", "费用"] (fun c => c == "日期")
        [fun _ => some "a"] ⟨true, false, true⟩) = true ∧
    wroteJson (process_data ["日期", "费用"] (fun c => c == "日期")
        [fun _ => some "a"] ⟨true, false, true⟩) = false := by
  constructor
  · decide
  · decide

/-- C2 amended: failures up to and including the Excel save leave nothing
written, and the keyed JSON export is only ever written after the tabular
sheet (so a JSON write can never exist without the Excel file); but a
failure while creating the JSON output directory, and likewise a failure
while writing the JSON file itself, leaves the tabular sheet written
without the keyed export. -/
theorem atomic_write_c2_amended (cols : List String) (checked : String → Bool)
    (rawRows : List (String → Option String)) (fl : RunFlags) :
    (wroteJson (process_data cols checked rawRows fl) = true →
       wroteExcel (process_data cols checked rawRows fl) = true) ∧
    (fl.saveOk = false → (process_data cols checked rawRows fl).events = []) ∧
    (computeKeyColumns (cols.filter (fun c => checked c)) ≠ [] →
       fl.saveOk = true → fl.mkdirOk = false →
       wroteExcel (process_data cols checked rawRows fl) = true ∧
       wroteJson (process_data cols checked rawRows fl) = false) ∧
    (computeKeyColumns (cols.filter (fun c => checked c)) ≠ [] →
       fl.saveOk = true → fl.mkdirOk = true → fl.jsonOk = false →
       wroteExcel (process_data cols checked rawRows fl) = true ∧
       wroteJson (process_data cols checked rawRows fl) = false) := by
  obtain ⟨s, m, j⟩ := fl
  by_cases hk : computeKeyColumns (cols.filter (fun c => checked c)) = [] <;>
    cases s <;> cases m <;> cases j <;>
      simp [process_data, hk, wroteExcel, wroteJson]

/-- Witness for C2 (amended) at concrete inputs: with the key column
"日期" selected and a successful save, a failing directory creation and a
failing JSON write each leave the Excel file written and the JSON export
unwritten. -/
theorem atomic_write_c2_amended_witness :
    (wroteExcel (process_data ["日期"] (fun _ => true) [] ⟨true, false, true⟩) = true ∧
     wroteJson (process_data ["日期"] (fun _ => true) [] ⟨true, false, true⟩) = false) ∧
    (wroteExcel (process_data ["日期"] (fun _ => true) [] ⟨true, true, false⟩) = true ∧
     wroteJson (process_data ["日期"] (fun _ => true) [] ⟨true, true, false⟩) = false) :=
  ⟨(atomic_write_c2_amended ["日期"] (fun _ => true) [] ⟨true, false, true⟩).2.2.1
      (by decide) rfl rfl,
   (atomic_write_c2_amended ["日期"] (fun _ => true) [] ⟨true, true, false⟩).2.2.2
      (by decide) rfl rfl rfl⟩

theorem append_sep_eq :
    ∀ (a : List Char) {b r s : List Char}, '_' ∉ a → '_' ∉ b →
      a ++ '_' :: r = b ++ '_' :: s → a = b ∧ r = s := by
  intro a
  induction a with
  | nil =>
    intro b r s _ hb h
    cases b with
    | nil =>
      simp only [List.nil_append] at h
      exact ⟨rfl, List.cons.inj h |>.2⟩
    | cons c bs =>
      exfalso
      rw [List.nil_append, List.cons_append] at h
      have h1 := (List.cons.inj h).1
      apply hb
      rw [← h1]
      exact List.mem_cons_self _ _
  | cons c as ih =>
    intro b r s ha hb h
    cases b with
    | nil =>
      exfalso
      rw [List.nil_append, List.cons_append] at h
      have h1 := (List.cons.inj h).1
      apply ha
      rw [h1]
      exact List.mem_cons_self _ _
    | cons d bs =>
      rw [List.cons_append, List.cons_append] at h
      have h1 := (List.cons.inj h).1
      have h2 := (List.cons.inj h).2
      have ha' : '_' ∉ as := fun hm => ha (List.mem_cons_of_mem _ hm)
      have hb' : '_' ∉ bs := fun hm => hb (List.mem_cons_of_mem _ hm)
      obtain ⟨e1, e2⟩ := ih ha' hb' h2
      exact ⟨by rw [h1, e1], e2⟩

theorem joinKey_two (a : String) (c : String) (cs : List String) :
    joinKey (a :: c :: cs) = a ++ "_" ++ joinKey (c :: cs) := rfl

theorem joinKey_inj :
    ∀ (k1 : List String) {k2 : List String}, k1.length = k2.length →
      (∀ x ∈ k1, '_' ∉ x.data) → (∀ x ∈ k2, '_' ∉ x.data) →
      joinKey k1 = joinKey k2 → k1 = k2 := by
  intro k1
  induction k1 with
  | nil =>
    intro k2 hlen _ _ _
    cases k2 with
    | nil => rfl
    | cons b t2 => simp at hlen
  | cons a t1 ih =>
    intro k2 hlen h1 h2 hj
    cases k2 with
    | nil => simp at hlen
    | cons b t2 =>
      cases t1 with
      | nil =>
        cases t2 with
        | nil =>
          have : a = b := hj
          rw [this]
        | cons x xs => simp at hlen
      | cons c cs =>
        cases t2 with
        | nil => simp at hlen
        | cons d ds =>
          rw [joinKey_two, joinKey_two] at hj
          have hd : a.data ++ '_' :: (joinKey (c :: cs)).data =
              b.data ++ '_' :: (joinKey (d :: ds)).data := by
            have := congrArg String.data hj
            simpa [String.data_append] using this
          have hna : '_' ∉ a.data := h1 a (List.mem_cons_self _ _)
          have hnb : '_' ∉ b.data := h2 b (List.mem_cons_self _ _)
          obtain ⟨e1, e2⟩ := append_sep_eq a.data hna hnb hd
          have e1' : a = b := stringDataInj e1
          have e2' : joinKey (c :: cs) = joinKey (d :: ds) := stringDataInj e2
          have hlen' : (c :: cs).length = (d :: ds).length := by simpa using hlen
          have ht1 : ∀ x ∈ c :: cs, '_' ∉ x.data :=
            fun x hx => h1 x (List.mem_cons_of_mem _ hx)
          have ht2 : ∀ x ∈ d :: ds, '_' ∉ x.data :=
            fun x hx => h2 x (List.mem_cons_of_mem _ hx)
          rw [e1', ih hlen' ht1 ht2 e2']

theorem updateAppend_map {α γ β : Type} [DecidableEq α] [DecidableEq γ]
    (f : α → γ) (k : α) (v : β) :
    ∀ (gs : List (α × List β)),
      (∀ p ∈ gs, f p.1 = f k → p.1 = k) →
      updateAppend (f k) v (gs.map (fun p => (f p.1, p.2))) =
        (updateAppend k v gs).map (fun p => (f p.1, p.2)) := by
  intro gs
  induction gs with
  | nil => intro _; rfl
  | cons p rest ih =>
    intro hinj
    obtain ⟨k', vs⟩ := p
    by_cases hk : k' = k
    · subst hk
      simp [updateAppend]
    · have hfk : ¬(f k' = f k) := fun he => hk (hinj (k', vs) (List.mem_cons_self _ _) he)
      have ih' := ih (fun p hp he => hinj p (List.mem_cons_of_mem _ hp) he)
      simp only [List.map_cons, updateAppend, if_neg hk, if_neg hfk, List.map_cons, ih']

theorem updateAppend_fst_mem {α β : Type} [DecidableEq α] (k : α) (v : β) :
    ∀ (gs : List (α × List β)) (x : α),
      x ∈ (updateAppend k v gs).map Prod.fst → x = k ∨ x ∈ gs.map Prod.fst := by
  intro gs
  induction gs with
  | nil =>
    intro x hx
    simp [updateAppend] at hx
    left
    exact hx
  | cons p rest ih =>
    intro x hx
    obtain ⟨k', vs⟩ := p
    by_cases hk : k' = k
    · subst hk
      simp only [updateAppend, if_pos rfl, List.map_cons, List.mem_cons] at hx ⊢
      right
      simpa using hx
    · simp only [updateAppend, if_neg hk, List.map_cons, List.mem_cons] at hx ⊢
      rcases hx with hx | hx
      · right
        left
        exact hx
      · rcases ih x hx with hx' | hx'
        · left
          exact hx'
        · right
          right
          exact hx'

theorem groupRows_fold_sync (kc dc : List String) :
    ∀ (rows : List (String → String))
      (acc : List (List String × List (List (String × PyVal)))),
      (∀ x ∈ acc.map Prod.fst, x.length = kc.length ∧ ∀ s ∈ x, '_' ∉ s.data) →
      (∀ r ∈ rows, ∀ c ∈ kc, '_' ∉ (r c).data) →
      rows.foldl (groupStep kc dc)
          (acc, acc.map (fun p => (joinKey p.1, p.2))) =
        (rows.foldl (fun a r => updateAppend (kc.map r) (buildDetail dc r) a) acc,
         (rows.foldl (fun a r => updateAppend (kc.map r) (buildDetail dc r) a) acc).map
           (fun p => (joinKey p.1, p.2))) := by
  intro rows
  induction rows with
  | nil => intro acc _ _; rfl
  | cons r rs ih =>
    intro acc hacc hrows
    rw [List.foldl_cons, List.foldl_cons]
    have hrkey : (kc.map r).length = kc.length ∧ ∀ s ∈ kc.map r, '_' ∉ s.data := by
      constructor
      · exact List.length_map kc r
      · intro s hs
        rw [List.mem_map] at hs
        obtain ⟨c, hc, he⟩ := hs
        rw [← he]
        exact hrows r (List.mem_cons_self _ _) c hc
    have hinj : ∀ p ∈ acc, joinKey p.1 = joinKey (kc.map r) → p.1 = kc.map r := by
      intro p hp he
      have hpk := hacc p.1 (List.mem_map.mpr ⟨p, hp, rfl⟩)
      exact joinKey_inj p.1 (by rw [hpk.1, hrkey.1]) hpk.2 hrkey.2 he
    have hstep : groupStep kc dc (acc, acc.map (fun p => (joinKey p.1, p.2))) r =
        (updateAppend (kc.map r) (buildDetail dc r) acc,
         (updateAppend (kc.map r) (buildDetail dc r) acc).map
           (fun p => (joinKey p.1, p.2))) := by
      unfold groupStep
      rw [updateAppend_map joinKey (kc.map r) (buildDetail dc r) acc hinj]
    rw [hstep]
    apply ih
    · intro x hx
      rcases updateAppend_fst_mem (kc.map r) (buildDetail dc r) acc x hx with hx' | hx'
      · rw [hx']
        exact hrkey
      · exact hacc x hx'
    · intro r' hr' c hc
      exact hrows r' (List.mem_cons_of_mem _ hr') c hc

/-- C1: when no canonical key value contains the join separator "_" (and at
least one key column is selected), the tuple-indexed group map and the
string-indexed group map built by the grouping loop are in exact
correspondence: the string index is the tuple index with each key tuple
replaced by its "_"-join — same groups of the same rows, in the same
first-seen group order, with the same within-group append order. -/
theorem group_indexes_sync_c1 (key_columns detail_columns : List String)
    (rows : List (String → String))
    (_hne : key_columns ≠ [])
    (hsep : ∀ r ∈ rows, ∀ c ∈ key_columns, '_' ∉ (r c).data) :
    (groupRows key_columns detail_columns rows).2 =
      (groupRows key_columns detail_columns rows).1.map
        (fun p => (joinKey p.1, p.2)) := by
  have h0 : (∀ x ∈ ([] : List (List String × List (List (String × PyVal)))).map
      Prod.fst, x.length = key_columns.length ∧ ∀ s ∈ x, '_' ∉ s.data) := by
    intro x hx
    simp at hx
  have := groupRows_fold_sync key_columns detail_columns rows [] h0 hsep
  unfold groupRows
  rw [show (([], []) :
      List (List String × List (List (String × PyVal)))
        × List (String × List (List (String × PyVal)))) =
      (([] : List (List String × List (List (String × PyVal)))),
       ([] : List (List String × List (List (String × PyVal)))).map
         (fun p => (joinKey p.1, p.2))) from rfl]
  rw [this]

/-- Witness for C1 at a concrete input: one row, key column "日期", detail
column "费用", key values free of "_". -/
theorem group_indexes_sync_c1_witness :
    (groupRows ["日期"] ["费用"] [fun _ => "a"]).2 =
      (groupRows ["日期"] ["费用"] [fun _ => "a"]).1.map
        (fun p => (joinKey p.1, p.2)) :=
  group_indexes_sync_c1 ["日期"] ["费用"] [fun _ => "a"] (by decide)
    (by
      intro r hr c hc
      rw [List.mem_singleton] at hr
      subst hr
      rw [List.mem_singleton] at hc
      subst hc
      decide)

theorem trim_nan_dot0_id {s : String} (h1 : s ≠ "nan") (h2 : endsDot0 s = false) :
    trim_nan_dot0 s = s := by
  unfold trim_nan_dot0
  rw [if_neg h1, h2]
  simp

/-- C8 counterexample: full normalization is not idempotent — "1.0.0" in a
non-date column normalizes to "1.0" (one trailing-".0" trim), and
normalizing that result again trims once more to "1". -/
theorem idem_c8_counterexample :
    normalizeCell "运单号" (some "1.0.0") = "1.0" ∧
    normalizeCell "运单号" (some (normalizeCell "运单号" (some "1.0.0"))) = "1" ∧
    normalizeCell "运单号" (some (normalizeCell "运单号" (some "1.0.0"))) ≠
      normalizeCell "运单号" (some "1.0.0") := by
  refine ⟨by decide, by decide, by decide⟩

/-- C8 amended: normalization is idempotent on a cell of a column that is
not date-keyword-flagged whenever the first normalization's result is not
the literal "nan" and does not end in ".0" (otherwise the nan-removal or
the trim fires again, as in the "1.0.0" counterexample); the representative
date input "45932.0" in the date-flagged column "日期" is idempotent as
well (its result "2025-10-02" parses back to the same date). -/
theorem idem_c8_amended :
    (∀ (c : String) (v : Option String), isDateCol c = false →
       normalizeCell c v ≠ "nan" → endsDot0 (normalizeCell c v) = false →
       normalizeCell c (some (normalizeCell c v)) = normalizeCell c v) ∧
    normalizeCell "日期" (some (normalizeCell "日期" (some "45932.0"))) =
      normalizeCell "日期" (some "45932.0") := by
  constructor
  · intro c v hnd hnan hdot
    simp only [normalizeCell_nondate hnd] at hnan hdot ⊢
    show fix_sci (trim_nan_dot0 (fix_sci (trim_nan_dot0 (astype_str v)))) =
      fix_sci (trim_nan_dot0 (astype_str v))
    rw [trim_nan_dot0_id hnan hdot]
    exact fix_sci_idem _
  · decide

/-- Witness for C8 (amended) at a concrete input: "abc" in a non-date
column is a fixed point of normalization. -/
theorem idem_c8_amended_witness :
    normalizeCell "运单号" (some (normalizeCell "运单号" (some "abc"))) =
      normalizeCell "运单号" (some "abc") :=
  idem_c8_amended.1 "运单号" (some "abc") (by decide) (by decide) (by decide)
